import Mathlib

/-!
Shallow embedding of the fitness-tracker repository (Go).

Go `float64` values are embedded as exact rationals `ℚ`; Go `time.Duration`
(an `int64` count of nanoseconds) is embedded as `Int`; Go `int` (64-bit) is
embedded as `Int`, with the 64-bit range enforced exactly where the Go code
enforces it (`strconv.Atoi` / `time.ParseDuration`). Go strings are embedded
as `List Char` on the parsing side; report outputs are Lean `String`s.
A Go function returning `(T, error)` is embedded as `T × Option Err`,
where the error inductive has one constructor per distinct `fmt.Errorf`
site, carrying the formatted arguments.
-/

namespace FitnessTracker

/-- Constants of package spentcalories (`LenStep = 0.65`, `MInKm = 1000`,
`minInH = 60`, `stepLengthCoefficient = 0.45`,
`walkingCaloriesCoefficient = 0.5`). -/
def LenStep : ℚ := 65 / 100

/-- Meters in a kilometre. -/
def MInKm : ℚ := 1000

/-- Minutes in an hour. -/
def minInH : ℚ := 60

/-- Coefficient for the height-based step length. -/
def stepLengthCoefficient : ℚ := 45 / 100

/-- Coefficient applied to running calories to obtain walking calories. -/
def walkingCaloriesCoefficient : ℚ := 1 / 2

/-- Activity label "Бег" (running). -/
def running : List Char := ['Б', 'е', 'г']

/-- Activity label "Ходьба" (walking). -/
def walking : List Char := ['Х', 'о', 'д', 'ь', 'б', 'а']

/-- Errors produced by `RunningSpentCalories` (one constructor per
`fmt.Errorf` site, carrying the offending value). -/
inductive CalErr where
  | stepsNotPositive (steps : Int)
  | weightNotPositive (weight : ℚ)
  | heightNotPositive (height : ℚ)
  | durationNotPositive (duration : Int)
  deriving DecidableEq, Repr

/-- Errors produced by `parsePackage` / `parseTraining` (one constructor per
`fmt.Errorf` site). -/
inductive ParseErr where
  | invalidFormat (data : List Char)
  | parsingStepsFailed (field : List Char)
  | stepsNotPositive (steps : Int)
  | parsingDurationFailed (field : List Char)
  | durationNotPositive (duration : Int)
  deriving DecidableEq, Repr

/-- Errors returned by `TrainingInfo`. -/
inductive TrainErr where
  | weightNotPositive (weight : ℚ)
  | heightNotPositive (height : ℚ)
  | parseFailed (e : ParseErr)
  | caloriesFailed (e : CalErr)
  | unknownTrainingType
  deriving DecidableEq, Repr

/-- Go `Duration.Hours()`: the duration (nanoseconds) as a fractional
number of hours. -/
def durHours (d : Int) : ℚ := (d : ℚ) / 3600000000000

/-- Go `Duration.Minutes()`: the duration (nanoseconds) as a fractional
number of minutes. -/
def durMinutes (d : Int) : ℚ := (d : ℚ) / 60000000000

/-- `distance` from package spentcalories: distance in km from a step count
and a height in cm. -/
def distance (steps : Int) (height : ℚ) : ℚ :=
  if steps ≤ 0 ∨ height ≤ 0 then 0
  else stepLengthCoefficient * height * (steps : ℚ) / MInKm

/-- `meanSpeed` from package spentcalories: mean speed in km/h. -/
def meanSpeed (steps : Int) (height : ℚ) (duration : Int) : ℚ :=
  if steps ≤ 0 ∨ height ≤ 0 ∨ duration ≤ 0 then 0
  else distance steps height / durHours duration

/-- `RunningSpentCalories` from package spentcalories. -/
def RunningSpentCalories (steps : Int) (weight height : ℚ) (duration : Int) :
    ℚ × Option CalErr :=
  if steps ≤ 0 then (0, some (CalErr.stepsNotPositive steps))
  else if weight ≤ 0 then (0, some (CalErr.weightNotPositive weight))
  else if height ≤ 0 then (0, some (CalErr.heightNotPositive height))
  else if duration ≤ 0 then (0, some (CalErr.durationNotPositive duration))
  else (weight * meanSpeed steps height duration * durMinutes duration / minInH, none)

/-- `WalkingSpentCalories` from package spentcalories: delegates to
`RunningSpentCalories`, propagates its error, else applies the walking
coefficient. -/
def WalkingSpentCalories (steps : Int) (weight height : ℚ) (duration : Int) :
    ℚ × Option CalErr :=
  match RunningSpentCalories steps weight height duration with
  | (_, some e) => (0, some e)
  | (calories, none) => (calories * walkingCaloriesCoefficient, none)

/-- Model of Go `strings.Split(data, ",")`: split a character list at every
comma; always returns at least one (possibly empty) field. -/
def splitOnComma : List Char → List (List Char)
  | [] => [[]]
  | c :: rest =>
    if c = ',' then [] :: splitOnComma rest
    else
      match splitOnComma rest with
      | [] => [[c]]
      | p :: ps => (c :: p) :: ps

/-- Model of Go `strconv.Atoi` (= `ParseInt(s, 10, 0)` with 64-bit `int`):
an optional sign followed by one or more decimal digits, rejected when the
value falls outside `[-2^63, 2^63 - 1]`. -/
def atoi (s : List Char) : Option Int :=
  match s with
  | [] => none
  | c :: rest =>
    let neg : Bool := c == '-'
    let ds : List Char := if c == '-' || c == '+' then rest else c :: rest
    if ds = [] ∨ ¬ ds.all Char.isDigit then none
    else
      let n : Nat := ds.foldl (fun a ch => a * 10 + (ch.toNat - 48)) 0
      let v : Int := if neg then -(n : Int) else (n : Int)
      if v < -(2 ^ 63) ∨ (2 ^ 63 - 1 : Int) < v then none else some v

/-- Model of Go `time.ParseDuration`'s `leadingInt`: consume leading decimal
digits accumulating their value, failing (like Go's `errLeadingInt`) as soon
as the accumulator would exceed `2^63 - 1`. -/
def leadingInt : Nat → List Char → Option (Nat × List Char)
  | x, [] => some (x, [])
  | x, c :: rest =>
    if c.isDigit then
      if (2 ^ 63 - 1) / 10 < x then none
      else if 2 ^ 63 - 1 < x * 10 + (c.toNat - 48) then none
      else leadingInt (x * 10 + (c.toNat - 48)) rest
    else some (x, c :: rest)

/-- Model of Go `time.ParseDuration`'s `leadingFraction`: consume leading
decimal digits after the dot; once the accumulator would overflow, further
digits are consumed but ignored. The Go `scale` is a `float64` power of ten;
it is embedded exactly as a rational. -/
def leadingFraction : Nat → ℚ → Bool → List Char → Nat × ℚ × List Char
  | x, scale, _, [] => (x, scale, [])
  | x, scale, overflow, c :: rest =>
    if c.isDigit then
      if overflow then leadingFraction x scale true rest
      else if (2 ^ 63 - 1) / 10 < x then leadingFraction x scale true rest
      else if 2 ^ 63 - 1 < x * 10 + (c.toNat - 48) then leadingFraction x scale true rest
      else leadingFraction (x * 10 + (c.toNat - 48)) (scale * 10) overflow rest
    else (x, scale, c :: rest)

/-- The optional fractional part `[.digits]` of one `ParseDuration`
component: returns the fraction value, its scale, the rest of the input and
whether any fractional digit was consumed. -/
def fracPart (s : List Char) : Nat × ℚ × List Char × Bool :=
  match s with
  | [] => (0, 1, s, false)
  | c :: r =>
    if c = '.' then
      match leadingFraction 0 1 false r with
      | (f, sc, r2) => (f, sc, r2, decide (r2.length ≠ r.length))
    else (0, 1, s, false)

/-- Go `time.ParseDuration`'s `unitMap`: nanoseconds per unit token. -/
def unitMap (u : List Char) : Option Nat :=
  if u = ['n', 's'] then some 1
  else if u = ['u', 's'] then some 1000
  else if u = ['µ', 's'] then some 1000
  else if u = ['μ', 's'] then some 1000
  else if u = ['m', 's'] then some 1000000
  else if u = ['s'] then some 1000000000
  else if u = ['m'] then some 60000000000
  else if u = ['h'] then some 3600000000000
  else none

/-- Characters at which a `ParseDuration` unit token ends. -/
def isUnitEnd (c : Char) : Bool := c = '.' || c.isDigit

/-- The main loop of Go `time.ParseDuration`: repeatedly consume a
`digits[.digits]unit` component, accumulating nanoseconds with Go's exact
overflow checks against `2^63`. The fractional contribution
`uint64(f * (float64(unit)/scale))` is embedded as the floor of the exact
rational product. The loop consumes at least one character per iteration,
so a fuel of the input length makes the recursion total without changing
the computed value. -/
def parseDurLoop : Nat → Nat → List Char → Option Nat
  | _, d, [] => some d
  | 0, _, _ :: _ => none
  | fuel + 1, d, c :: cs =>
    if ¬ (c = '.' ∨ c.isDigit) then none
    else
      match leadingInt 0 (c :: cs) with
      | none => none
      | some (v, s1) =>
        let pre : Bool := decide (s1.length ≠ (c :: cs).length)
        match fracPart s1 with
        | (f, scale, s2, post) =>
          if pre = false ∧ post = false then none
          else
            let u := s2.takeWhile (fun ch => ¬ isUnitEnd ch)
            let s3 := s2.dropWhile (fun ch => ¬ isUnitEnd ch)
            if u = [] then none
            else
              match unitMap u with
              | none => none
              | some unit =>
                if 2 ^ 63 / unit < v then none
                else
                  let v2 : Nat :=
                    if 0 < f then v * unit + (((f : ℚ) * ((unit : ℚ) / scale)).floor).toNat
                    else v * unit
                  if 2 ^ 63 < v2 then none
                  else if 2 ^ 63 < d + v2 then none
                  else parseDurLoop fuel (d + v2) s3

/-- Model of Go `time.ParseDuration`: optional sign, the special case `"0"`,
then a nonempty sequence of `digits[.digits]unit` components; the result is
a signed nanosecond count within `int64` range. -/
def ParseDuration (s : List Char) : Option Int :=
  match s with
  | [] => none
  | c :: rest =>
    let neg : Bool := c == '-'
    let s1 : List Char := if c == '-' || c == '+' then rest else c :: rest
    if s1 = ['0'] then some 0
    else if s1 = [] then none
    else
      match parseDurLoop s1.length 0 s1 with
      | none => none
      | some d =>
        if neg then some (-(d : Int))
        else if (2 ^ 63 - 1 : Nat) < d then none
        else some (d : Int)

/-- `parsePackage` from package daysteps: split `"steps,duration"`, parse and
range-check both fields. Returns Go's `(count, duration, err)` triple. -/
def parsePackage (data : List Char) : Int × Int × Option ParseErr :=
  match splitOnComma data with
  | [stepCount, durationText] =>
    (match atoi stepCount with
     | none => (0, 0, some (ParseErr.parsingStepsFailed stepCount))
     | some count =>
       if count ≤ 0 then (0, 0, some (ParseErr.stepsNotPositive count))
       else
         match ParseDuration durationText with
         | none => (0, 0, some (ParseErr.parsingDurationFailed durationText))
         | some duration =>
           if duration ≤ 0 then (0, 0, some (ParseErr.durationNotPositive duration))
           else (count, duration, none))
  | _ => (0, 0, some (ParseErr.invalidFormat data))

/-- `parseTraining` from package spentcalories: split
`"steps,activity,duration"`, parse and range-check the numeric fields.
Returns Go's `(count, activity, duration, err)` tuple (the activity field is
returned even on later failures, as in the Go code). -/
def parseTraining (data : List Char) : Int × List Char × Int × Option ParseErr :=
  match splitOnComma data with
  | [stepCount, activity, durationText] =>
    (match atoi stepCount with
     | none => (0, activity, 0, some (ParseErr.parsingStepsFailed stepCount))
     | some count =>
       if count ≤ 0 then (0, activity, 0, some (ParseErr.stepsNotPositive count))
       else
         match ParseDuration durationText with
         | none => (0, activity, 0, some (ParseErr.parsingDurationFailed durationText))
         | some duration =>
           if duration ≤ 0 then (0, activity, 0, some (ParseErr.durationNotPositive duration))
           else (count, activity, duration, none))
  | _ => (0, [], 0, some (ParseErr.invalidFormat data))

/-- The decimal digit character for `k` (`k ≤ 9`). -/
def digitChar (k : Nat) : Char :=
  if k = 0 then '0'
  else if k = 1 then '1'
  else if k = 2 then '2'
  else if k = 3 then '3'
  else if k = 4 then '4'
  else if k = 5 then '5'
  else if k = 6 then '6'
  else if k = 7 then '7'
  else if k = 8 then '8'
  else '9'

/-- Decimal rendering of a natural number (model of Go `fmt` `%d` on
nonnegative values). -/
def natToChars (n : Nat) : List Char :=
  if _h : n < 10 then [digitChar n]
  else natToChars (n / 10) ++ [digitChar (n % 10)]
  decreasing_by exact Nat.div_lt_self (by omega) (by omega)

/-- Decimal rendering of an integer (model of Go `fmt` `%d`). -/
def intToChars (i : Int) : List Char :=
  if i < 0 then '-' :: natToChars i.natAbs else natToChars i.natAbs

/-- Two-digit zero-padded rendering of `n < 100`. -/
def pad2 (n : Nat) : String :=
  if n < 10 then "0" ++ String.mk (natToChars n) else String.mk (natToChars n)

/-- Model of Go `fmt` `%.2f`: the rational rounded to two decimal places and
rendered with exactly two digits after the dot. -/
def formatFloat2 (q : ℚ) : String :=
  let n : Int := round (q * 100)
  let sign := if n < 0 then "-" else ""
  let m := n.natAbs
  sign ++ String.mk (natToChars (m / 100)) ++ "." ++ pad2 (m % 100)

/-- The fixed-stride distance computed inline in `DayActionInfo`:
`float64(steps) * LenStep / MInKm`. -/
def dayDist (steps : Int) : ℚ := (steps : ℚ) * LenStep / MInKm

/-- The `fmt.Sprintf` template of `DayActionInfo`:
`"Количество шагов: %d.\nДистанция составила %.2f км.\nВы сожгли %.2f ккал.\n"`. -/
def dayMsg (steps : Int) (dist calories : ℚ) : String :=
  "Количество шагов: " ++ String.mk (intToChars steps) ++
    (".\nДистанция составила " ++ formatFloat2 dist ++ " км.\nВы сожгли " ++
      formatFloat2 calories ++ " ккал.\n")

/-- The `fmt.Sprintf` template of `TrainingInfo`:
`"Тип тренировки: %s\nДлительность: %.2f ч.\nДистанция: %.2f км.\nСкорость: %.2f км/ч\nСожгли калорий: %.2f\n"`. -/
def trainingMsg (activity : List Char) (duration : Int) (dist speed calories : ℚ) :
    String :=
  "Тип тренировки: " ++ String.mk activity ++ "\nДлительность: " ++
    formatFloat2 (durHours duration) ++ " ч.\nДистанция: " ++ formatFloat2 dist ++
    " км.\nСкорость: " ++ formatFloat2 speed ++ " км/ч\nСожгли калорий: " ++
    formatFloat2 calories ++ "\n"

/-- `DayActionInfo` from package daysteps: validate weight and height, parse
the record, compute the fixed-stride distance and the walking calories, and
format the daily report; every failure yields the empty string. -/
def DayActionInfo (data : List Char) (weight height : ℚ) : String :=
  if weight ≤ 0 ∨ height ≤ 0 then ""
  else
    match parsePackage data with
    | (_, _, some _) => ""
    | (steps, duration, none) =>
      match WalkingSpentCalories steps weight height duration with
      | (_, some _) => ""
      | (calories, none) => dayMsg steps (dayDist steps) calories

/-- `TrainingInfo` from package spentcalories: validate weight and height,
parse the record, dispatch on the activity label, and format the training
report; every failure returns `("", some error)`. -/
def TrainingInfo (data : List Char) (weight height : ℚ) : String × Option TrainErr :=
  if weight ≤ 0 then ("", some (TrainErr.weightNotPositive weight))
  else if height ≤ 0 then ("", some (TrainErr.heightNotPositive height))
  else
    match parseTraining data with
    | (_, _, _, some e) => ("", some (TrainErr.parseFailed e))
    | (steps, activity, duration, none) =>
      match
        (if activity = running then some (RunningSpentCalories steps weight height duration)
         else if activity = walking then some (WalkingSpentCalories steps weight height duration)
         else none) with
      | none => ("", some TrainErr.unknownTrainingType)
      | some (_, some e) => ("", some (TrainErr.caloriesFailed e))
      | some (calories, none) =>
        (trainingMsg activity duration (distance steps height)
          (meanSpeed steps height duration) calories, none)

/-- A successful `parsePackage` guarantees positive steps and duration. -/
theorem parsePackage_ok_pos {data : List Char} {s d : Int}
    (h : parsePackage data = (s, d, none)) : 0 < s ∧ 0 < d := by
  unfold parsePackage at h
  repeat' split at h
  all_goals simp_all

/-- All four guards of `RunningSpentCalories` pass on positive inputs. -/
theorem runningErrNone {steps : Int} {weight height : ℚ} {duration : Int}
    (h1 : 0 < steps) (h2 : 0 < weight) (h3 : 0 < height) (h4 : 0 < duration) :
    (RunningSpentCalories steps weight height duration).2 = none := by
  simp [RunningSpentCalories, not_le.mpr h1, not_le.mpr h2, not_le.mpr h3, not_le.mpr h4]

/-- `WalkingSpentCalories` succeeds on positive inputs. -/
theorem walkingErrNone {steps : Int} {weight height : ℚ} {duration : Int}
    (h1 : 0 < steps) (h2 : 0 < weight) (h3 : 0 < height) (h4 : 0 < duration) :
    (WalkingSpentCalories steps weight height duration).2 = none := by
  have hr : (RunningSpentCalories steps weight height duration).2 = none :=
    runningErrNone h1 h2 h3 h4
  unfold WalkingSpentCalories
  rcases hR : RunningSpentCalories steps weight height duration with ⟨c, err⟩
  rw [hR] at hr
  simp only at hr
  subst hr
  rfl

/-- C1: `RunningSpentCalories(steps, weight, height, duration)` returns an
error whenever `steps ≤ 0`, `weight ≤ 0`, `height ≤ 0`, or `duration ≤ 0`,
each constraint checked independently in that order so the first violated
one determines the error; for strictly positive inputs it returns
`weight * meanSpeed(steps, height, duration) * duration.Minutes() / 60`
with no error. -/
theorem RunningSpentCalories_spec (steps : Int) (weight height : ℚ) (duration : Int) :
    (steps ≤ 0 →
      RunningSpentCalories steps weight height duration =
        (0, some (CalErr.stepsNotPositive steps))) ∧
    (0 < steps → weight ≤ 0 →
      RunningSpentCalories steps weight height duration =
        (0, some (CalErr.weightNotPositive weight))) ∧
    (0 < steps → 0 < weight → height ≤ 0 →
      RunningSpentCalories steps weight height duration =
        (0, some (CalErr.heightNotPositive height))) ∧
    (0 < steps → 0 < weight → 0 < height → duration ≤ 0 →
      RunningSpentCalories steps weight height duration =
        (0, some (CalErr.durationNotPositive duration))) ∧
    (0 < steps → 0 < weight → 0 < height → 0 < duration →
      RunningSpentCalories steps weight height duration =
        (weight * meanSpeed steps height duration * durMinutes duration / 60, none)) := by
  refine ⟨fun h1 => ?_, fun h1 h2 => ?_, fun h1 h2 h3 => ?_,
    fun h1 h2 h3 h4 => ?_, fun h1 h2 h3 h4 => ?_⟩
  · simp [RunningSpentCalories, h1]
  · simp [RunningSpentCalories, not_le.mpr h1, h2]
  · simp [RunningSpentCalories, not_le.mpr h1, not_le.mpr h2, h3]
  · simp [RunningSpentCalories, not_le.mpr h1, not_le.mpr h2, not_le.mpr h3, h4]
  · simp [RunningSpentCalories, not_le.mpr h1, not_le.mpr h2, not_le.mpr h3,
      not_le.mpr h4, minInH]

/-- Witness for C1 at concrete positive inputs (5000 steps, 70 kg, 175 cm,
30 minutes). -/
theorem RunningSpentCalories_spec_witness :
    RunningSpentCalories 5000 70 175 1800000000000 =
      (70 * meanSpeed 5000 175 1800000000000 * durMinutes 1800000000000 / 60, none) :=
  (RunningSpentCalories_spec 5000 70 175 1800000000000).2.2.2.2
    (by decide) (by decide) (by decide) (by decide)

/-- C2: `WalkingSpentCalories` returns exactly the same error as
`RunningSpentCalories` on the same inputs when that errors, and otherwise
returns exactly `0.5 *` the running calories with no error. -/
theorem WalkingSpentCalories_half_running (steps : Int) (weight height : ℚ)
    (duration : Int) :
    (∀ e, (RunningSpentCalories steps weight height duration).2 = some e →
      WalkingSpentCalories steps weight height duration = (0, some e)) ∧
    ((RunningSpentCalories steps weight height duration).2 = none →
      WalkingSpentCalories steps weight height duration =
        (1 / 2 * (RunningSpentCalories steps weight height duration).1, none)) := by
  unfold WalkingSpentCalories
  rcases hR : RunningSpentCalories steps weight height duration with ⟨c, err⟩
  constructor
  · intro e he
    simp only at he
    rw [he]
  · intro he
    simp only at he
    rw [he]
    simp [walkingCaloriesCoefficient, mul_comm]

/-- Witness for C2 at concrete positive inputs. -/
theorem WalkingSpentCalories_half_running_witness :
    WalkingSpentCalories 5000 70 175 1800000000000 =
      (1 / 2 * (RunningSpentCalories 5000 70 175 1800000000000).1, none) :=
  (WalkingSpentCalories_half_running 5000 70 175 1800000000000).2 (by decide)

/-- C6: `distance(steps, height)` equals `0.45 * height * steps / 1000`
kilometres for all positive `steps` and `height`, and equals exactly `0`
(with no error channel at all) whenever `steps ≤ 0` or `height ≤ 0`. -/
theorem distance_spec (steps : Int) (height : ℚ) :
    (0 < steps → 0 < height →
      distance steps height = 45 / 100 * height * (steps : ℚ) / 1000) ∧
    (steps ≤ 0 ∨ height ≤ 0 → distance steps height = 0) := by
  refine ⟨fun h1 h2 => ?_, fun h => by rw [distance, if_pos h]⟩
  rw [distance, if_neg (by push_neg; exact ⟨h1, h2⟩)]
  rfl

/-- Witness for C6 at concrete inputs. -/
theorem distance_spec_witness :
    distance 5000 175 = 45 / 100 * 175 * (5000 : ℚ) / 1000 ∧ distance (-3) 175 = 0 :=
  ⟨(distance_spec 5000 175).1 (by decide) (by decide),
   (distance_spec (-3) 175).2 (Or.inl (by decide))⟩

/-- C7: `meanSpeed(steps, height, duration)` equals
`distance(steps, height) / duration.Hours()` for all positive inputs, and
returns exactly `0` — short-circuiting before any division — whenever
`steps ≤ 0`, `height ≤ 0` or `duration ≤ 0`. -/
theorem meanSpeed_spec (steps : Int) (height : ℚ) (duration : Int) :
    (0 < steps → 0 < height → 0 < duration →
      meanSpeed steps height duration = distance steps height / durHours duration) ∧
    (steps ≤ 0 ∨ height ≤ 0 ∨ duration ≤ 0 → meanSpeed steps height duration = 0) := by
  refine ⟨fun h1 h2 h3 => ?_, fun h => by rw [meanSpeed, if_pos h]⟩
  rw [meanSpeed, if_neg (by push_neg; exact ⟨h1, h2, h3⟩)]

/-- Witness for C7 at concrete inputs. -/
theorem meanSpeed_spec_witness :
    meanSpeed 5000 175 1800000000000 = distance 5000 175 / durHours 1800000000000 ∧
      meanSpeed 5000 175 0 = 0 :=
  ⟨(meanSpeed_spec 5000 175 1800000000000).1 (by decide) (by decide) (by decide),
   (meanSpeed_spec 5000 175 0).2 (Or.inr (Or.inr (by decide)))⟩

/-- C9: both public entry points are deterministic pure functions of their
three arguments: in this embedding of the side-effect-free Go code (the
only effect, diagnostic logging, does not influence the returned values),
two calls with identical inputs are the same value. -/
theorem report_functions_deterministic (data : List Char) (weight height : ℚ) :
    DayActionInfo data weight height = DayActionInfo data weight height ∧
    TrainingInfo data weight height = TrainingInfo data weight height :=
  ⟨rfl, rfl⟩

/-- C10: inside `DayActionInfo`, once `weight > 0`, `height > 0` and
`parsePackage` has succeeded (guaranteeing positive steps and duration),
the subsequent `WalkingSpentCalories` call always returns a nil error, so
the empty-string early return on a calorie-computation failure is
unreachable. -/
theorem WalkingSpentCalories_ok_after_parse (data : List Char) (weight height : ℚ)
    (s d : Int) (hw : 0 < weight) (hh : 0 < height)
    (hp : parsePackage data = (s, d, none)) :
    (WalkingSpentCalories s weight height d).2 = none := by
  obtain ⟨hs, hd⟩ := parsePackage_ok_pos hp
  exact walkingErrNone hs hw hh hd

/-- Witness for C10 on the record `"5000,30m"`. -/
theorem WalkingSpentCalories_ok_after_parse_witness :
    (WalkingSpentCalories 5000 70 175 1800000000000).2 = none :=
  WalkingSpentCalories_ok_after_parse ['5', '0', '0', '0', ',', '3', '0', 'm'] 70 175
    5000 1800000000000 (by decide) (by decide) (by decide)

/-- `DayActionInfo` returns the empty string whenever `parsePackage` fails. -/
theorem dayActionInfoEmptyOfParseErr {data : List Char} (weight height : ℚ)
    {e : ParseErr} (h : (parsePackage data).2.2 = some e) :
    DayActionInfo data weight height = "" := by
  unfold DayActionInfo
  rcases hp : parsePackage data with ⟨s, d, err⟩
  rw [hp] at h
  simp only at h
  subst h
  split
  · rfl
  · rfl

/-- Wrong field count makes `parsePackage` fail with `invalidFormat`. -/
theorem parsePackage_len_ne_two {data : List Char}
    (h : (splitOnComma data).length ≠ 2) :
    parsePackage data = (0, 0, some (ParseErr.invalidFormat data)) := by
  unfold parsePackage
  split
  · rename_i heq
    rw [heq] at h
    simp at h
  · rfl

/-- A non-integer step field makes `parsePackage` fail. -/
theorem parsePackage_atoi_none {data sf df : List Char}
    (hs : splitOnComma data = [sf, df]) (ha : atoi sf = none) :
    parsePackage data = (0, 0, some (ParseErr.parsingStepsFailed sf)) := by
  unfold parsePackage
  simp [hs, ha]

/-- A non-positive step count makes `parsePackage` fail. -/
theorem parsePackage_steps_nonpos {data sf df : List Char} {c : Int}
    (hs : splitOnComma data = [sf, df]) (ha : atoi sf = some c) (hc : c ≤ 0) :
    parsePackage data = (0, 0, some (ParseErr.stepsNotPositive c)) := by
  unfold parsePackage
  simp [hs, ha, hc]

/-- An unparsable duration field makes `parsePackage` fail (whatever the
step field did). -/
theorem parsePackage_dur_none {data sf df : List Char}
    (hs : splitOnComma data = [sf, df]) (hd : ParseDuration df = none) :
    ∃ e, (parsePackage data).2.2 = some e := by
  unfold parsePackage
  rw [hs]
  cases ha : atoi sf with
  | none => simp [ha]
  | some c =>
    by_cases hc : c ≤ 0
    · simp [ha, hc]
    · simp [ha, hc, hd]

/-- A non-positive parsed duration makes `parsePackage` fail (whatever the
step field did). -/
theorem parsePackage_dur_nonpos {data sf df : List Char} {d : Int}
    (hs : splitOnComma data = [sf, df]) (hd : ParseDuration df = some d)
    (hd0 : d ≤ 0) :
    ∃ e, (parsePackage data).2.2 = some e := by
  unfold parsePackage
  rw [hs]
  cases ha : atoi sf with
  | none => simp [ha]
  | some c =>
    by_cases hc : c ≤ 0
    · simp [ha, hc]
    · simp [ha, hc, hd, hd0]

/-- C3: `DayActionInfo` returns the empty string for every input where
`weight ≤ 0`, `height ≤ 0`, the raw string does not split into exactly two
comma-separated fields, the step field is not an integer, the parsed step
count is `≤ 0`, the duration field is unparsable, or the parsed duration is
`≤ 0`. The return type is a bare string, so no error value can reach the
caller on these inputs. -/
theorem DayActionInfo_empty_on_invalid (data : List Char) (weight height : ℚ) :
    (weight ≤ 0 → DayActionInfo data weight height = "") ∧
    (height ≤ 0 → DayActionInfo data weight height = "") ∧
    ((splitOnComma data).length ≠ 2 → DayActionInfo data weight height = "") ∧
    (∀ sf df, splitOnComma data = [sf, df] →
      (atoi sf = none → DayActionInfo data weight height = "") ∧
      (∀ c : Int, atoi sf = some c → c ≤ 0 → DayActionInfo data weight height = "") ∧
      (ParseDuration df = none → DayActionInfo data weight height = "") ∧
      (∀ d : Int, ParseDuration df = some d → d ≤ 0 →
        DayActionInfo data weight height = "")) := by
  refine ⟨fun h => ?_, fun h => ?_, fun h => ?_, fun sf df hs => ⟨fun h => ?_,
    fun c ha hc => ?_, fun h => ?_, fun d hd hd0 => ?_⟩⟩
  · unfold DayActionInfo
    rw [if_pos (Or.inl h)]
  · unfold DayActionInfo
    rw [if_pos (Or.inr h)]
  · exact dayActionInfoEmptyOfParseErr weight height
      (by rw [parsePackage_len_ne_two h])
  · exact dayActionInfoEmptyOfParseErr weight height
      (by rw [parsePackage_atoi_none hs h])
  · exact dayActionInfoEmptyOfParseErr weight height
      (by rw [parsePackage_steps_nonpos hs ha hc])
  · obtain ⟨e, he⟩ := parsePackage_dur_none hs h
    exact dayActionInfoEmptyOfParseErr weight height he
  · obtain ⟨e, he⟩ := parsePackage_dur_nonpos hs hd hd0
    exact dayActionInfoEmptyOfParseErr weight height he

/-- Witness for C3: non-positive weight, and a malformed record, each give
the empty report. -/
theorem DayActionInfo_empty_on_invalid_witness :
    DayActionInfo ['5', '0', '0', '0', ',', '3', '0', 'm'] 0 175 = "" ∧
    DayActionInfo ['a', 'b', 'c'] 70 175 = "" :=
  ⟨(DayActionInfo_empty_on_invalid ['5', '0', '0', '0', ',', '3', '0', 'm'] 0 175).1
      (by decide),
   (DayActionInfo_empty_on_invalid ['a', 'b', 'c'] 70 175).2.2.1 (by decide)⟩

/-- On positive weight and height and a successful parse, `DayActionInfo`
produces exactly the formatted daily report. -/
theorem dayActionInfoSuccess {data : List Char} {weight height : ℚ} {s d : Int}
    (hw : 0 < weight) (hh : 0 < height) (hp : parsePackage data = (s, d, none)) :
    DayActionInfo data weight height =
      dayMsg s (dayDist s) ((WalkingSpentCalories s weight height d).1) := by
  obtain ⟨hs, hd⟩ := parsePackage_ok_pos hp
  have hwk : (WalkingSpentCalories s weight height d).2 = none :=
    walkingErrNone hs hw hh hd
  unfold DayActionInfo
  rw [if_neg (by push_neg; exact ⟨hw, hh⟩)]
  simp only [hp]
  rcases hW : WalkingSpentCalories s weight height d with ⟨c, err⟩
  rw [hW] at hwk
  simp only at hwk
  subst hwk
  rfl

/-- Whenever `TrainingInfo` returns an error, the returned string is
empty. -/
theorem trainingInfoErrFstEmpty (data : List Char) (weight height : ℚ) (e : TrainErr)
    (h : (TrainingInfo data weight height).2 = some e) :
    (TrainingInfo data weight height).1 = "" := by
  unfold TrainingInfo at h ⊢
  split_ifs at h ⊢
  · rfl
  · rfl
  · rcases hp : parseTraining data with ⟨s, a, d, err⟩
    rw [hp] at h
    cases err with
    | some e2 => rfl
    | none =>
      dsimp only [] at h ⊢
      rcases hx : (if a = running then some (RunningSpentCalories s weight height d)
          else if a = walking then some (WalkingSpentCalories s weight height d)
          else none) with _ | ⟨c, cerr⟩
      · rw [hx] at h
      · rw [hx] at h
        cases cerr with
        | some e3 => rfl
        | none => simp at h

/-- C4: given a well-formed three-field record and positive weight and
height, `TrainingInfo` dispatches on the activity label: exactly "Бег" uses
the running-calorie formula, exactly "Ходьба" the walking-calorie formula,
and any other label yields the unknown-training-type error with an empty
result string; moreover whenever the returned error is non-nil the returned
string is empty. -/
theorem TrainingInfo_dispatch :
    (∀ (data : List Char) (weight height : ℚ) (steps : Int) (activity : List Char)
        (duration : Int),
      0 < weight → 0 < height →
      parseTraining data = (steps, activity, duration, none) →
      ((activity = running →
        TrainingInfo data weight height =
          (match RunningSpentCalories steps weight height duration with
           | (_, some e) => ("", some (TrainErr.caloriesFailed e))
           | (calories, none) =>
             (trainingMsg activity duration (distance steps height)
               (meanSpeed steps height duration) calories, none))) ∧
       (activity = walking →
        TrainingInfo data weight height =
          (match WalkingSpentCalories steps weight height duration with
           | (_, some e) => ("", some (TrainErr.caloriesFailed e))
           | (calories, none) =>
             (trainingMsg activity duration (distance steps height)
               (meanSpeed steps height duration) calories, none))) ∧
       (activity ≠ running → activity ≠ walking →
        TrainingInfo data weight height = ("", some TrainErr.unknownTrainingType)))) ∧
    (∀ (data : List Char) (weight height : ℚ) (e : TrainErr),
      (TrainingInfo data weight height).2 = some e →
      (TrainingInfo data weight height).1 = "") := by
  constructor
  · intro data weight height steps activity duration hw hh hp
    have hW : ¬ weight ≤ 0 := not_le.mpr hw
    have hH : ¬ height ≤ 0 := not_le.mpr hh
    refine ⟨fun hr => ?_, fun hk => ?_, fun hr hk => ?_⟩
    · subst hr
      unfold TrainingInfo
      rw [if_neg hW, if_neg hH]
      simp only [hp]
      rcases hR : RunningSpentCalories steps weight height duration with ⟨c, err⟩
      cases err <;> rfl
    · subst hk
      unfold TrainingInfo
      rw [if_neg hW, if_neg hH]
      simp only [hp]
      rcases hK : WalkingSpentCalories steps weight height duration with ⟨c, err⟩
      cases err <;> rfl
    · unfold TrainingInfo
      rw [if_neg hW, if_neg hH]
      simp only [hp]
      rw [if_neg hr, if_neg hk]
  · exact fun data weight height e he => trainingInfoErrFstEmpty data weight height e he

/-- Witness for C4: the record "5000,Плавание,30m" (an unknown activity)
yields the unknown-training-type error and an empty string. -/
theorem TrainingInfo_dispatch_witness :
    TrainingInfo
        ['5', '0', '0', '0', ',', 'П', 'л', 'а', 'в', 'а', 'н', 'и', 'е', ',', '3', '0', 'm']
        70 175 = ("", some TrainErr.unknownTrainingType) :=
  (TrainingInfo_dispatch.1
      ['5', '0', '0', '0', ',', 'П', 'л', 'а', 'в', 'а', 'н', 'и', 'е', ',', '3', '0', 'm']
      70 175 5000 ['П', 'л', 'а', 'в', 'а', 'н', 'и', 'е'] 1800000000000
      (by decide) (by decide) (by decide)).2.2 (by decide) (by decide)

/-- C5: the distance reported by `DayActionInfo` is the inline
`float64(steps) * LenStep / MInKm`, i.e. `steps * 0.65 / 1000` kilometres —
a constant per-step stride that ignores the caller's height — and this is a
different formula from the height-based `distance` used by `TrainingInfo`. -/
theorem DayActionInfo_distance_formula :
    (∀ steps : Int, dayDist steps = (steps : ℚ) * (65 / 100) / 1000) ∧
    (∃ (s : Int) (h : ℚ), 0 < s ∧ 0 < h ∧ distance s h ≠ dayDist s) ∧
    (∀ (data : List Char) (weight height : ℚ) (s d : Int),
      0 < weight → 0 < height → parsePackage data = (s, d, none) →
      DayActionInfo data weight height =
        dayMsg s (dayDist s) ((WalkingSpentCalories s weight height d).1)) :=
  ⟨fun _ => rfl,
   ⟨1000, 175, by decide, by decide,
    by norm_num [distance, dayDist, stepLengthCoefficient, LenStep, MInKm]⟩,
   fun _ _ _ _ _ hw hh hp => dayActionInfoSuccess hw hh hp⟩

/-- Witness for C5 on the record `"5000,30m"` with weight 70 and height
175. -/
theorem DayActionInfo_distance_formula_witness :
    DayActionInfo ['5', '0', '0', '0', ',', '3', '0', 'm'] 70 175 =
      dayMsg 5000 (dayDist 5000) ((WalkingSpentCalories 5000 70 175 1800000000000).1) :=
  DayActionInfo_distance_formula.2.2 ['5', '0', '0', '0', ',', '3', '0', 'm'] 70 175
    5000 1800000000000 (by decide) (by decide) (by decide)

/-- `digitChar k` is a decimal digit with value `k` when `k < 10`. -/
theorem digitChar_spec {k : Nat} (hk : k < 10) :
    (digitChar k).isDigit = true ∧ (digitChar k).toNat - 48 = k := by
  interval_cases k <;> exact ⟨by decide, by decide⟩

/-- Every character of `natToChars n` is a decimal digit. -/
theorem natToChars_all_digit (n : Nat) : ∀ c ∈ natToChars n, c.isDigit = true := by
  induction n using Nat.strong_induction_on with
  | _ n ih =>
    unfold natToChars
    split
    · rename_i h
      intro c hc
      simp only [List.mem_singleton] at hc
      subst hc
      exact (digitChar_spec h).1
    · rename_i h
      intro c hc
      rw [List.mem_append] at hc
      rcases hc with hc | hc
      · exact ih (n / 10) (Nat.div_lt_self (by omega) (by omega)) c hc
      · simp only [List.mem_singleton] at hc
        subst hc
        exact (digitChar_spec (Nat.mod_lt _ (by omega))).1

/-- `natToChars` never returns the empty list. -/
theorem natToChars_ne_nil (n : Nat) : natToChars n ≠ [] := by
  unfold natToChars
  split <;> simp

/-- Reading the decimal digits of `natToChars n` back with the `atoi`
accumulator recovers `n`. -/
theorem natToChars_foldl (n : Nat) :
    (natToChars n).foldl (fun a ch => a * 10 + (ch.toNat - 48)) 0 = n := by
  induction n using Nat.strong_induction_on with
  | _ n ih =>
    unfold natToChars
    split
    · rename_i h
      show 0 * 10 + ((digitChar n).toNat - 48) = n
      rw [(digitChar_spec h).2]
      omega
    · rename_i h
      rw [List.foldl_append, ih (n / 10) (Nat.div_lt_self (by omega) (by omega))]
      show n / 10 * 10 + ((digitChar (n % 10)).toNat - 48) = n
      rw [(digitChar_spec (Nat.mod_lt _ (by omega))).2]
      omega

/-- A decimal digit is not a comma, a dash, or a plus sign. -/
theorem isDigit_ne {c : Char} (h : c.isDigit = true) :
    c ≠ ',' ∧ (c == '-') = false ∧ (c == '+') = false := by
  refine ⟨fun he => ?_, beq_eq_false_iff_ne.mpr fun he => ?_,
    beq_eq_false_iff_ne.mpr fun he => ?_⟩ <;>
    (subst he; exact absurd h (by decide))

/-- The decimal rendering of an integer never contains a comma. -/
theorem intToChars_no_comma (s : Int) : ',' ∉ intToChars s := by
  unfold intToChars
  have hnat : ',' ∉ natToChars s.natAbs := fun hm =>
    absurd (natToChars_all_digit s.natAbs ',' hm) (by decide)
  split
  · intro hm
    rcases List.mem_cons.mp hm with h1 | h1
    · exact absurd h1 (by decide)
    · exact hnat h1
  · exact hnat

/-- `atoi` on the decimal rendering of a positive integer: the value is
recovered exactly when it fits in a 64-bit int, and rejected otherwise. -/
theorem atoi_intToChars_pos {s : Int} (h0 : 0 < s) :
    atoi (intToChars s) = if s ≤ 2 ^ 63 - 1 then some s else none := by
  have hneg : ¬ s < 0 := by omega
  rw [intToChars, if_neg hneg]
  rcases hn : natToChars s.natAbs with _ | ⟨c, cs⟩
  · exact absurd hn (natToChars_ne_nil _)
  · have hdig : ∀ ch ∈ c :: cs, ch.isDigit = true := by
      rw [← hn]; exact natToChars_all_digit _
    have hc := hdig c (List.mem_cons_self c cs)
    obtain ⟨-, hdash, hplus⟩ := isDigit_ne hc
    have hall : (c :: cs).all Char.isDigit = true := List.all_eq_true.mpr hdig
    have hval : (c :: cs).foldl (fun a ch => a * 10 + (ch.toNat - 48)) 0 = s.natAbs := by
      rw [← hn]; exact natToChars_foldl _
    unfold atoi
    dsimp only []
    rw [hdash, hplus]
    rw [if_neg (by decide : ¬ (((false : Bool) || false) = true))]
    rw [if_neg (by simp [hall])]
    rw [hval]
    rw [if_neg (by decide : ¬ ((false : Bool) = true))]
    rw [Int.natAbs_of_nonneg (le_of_lt h0)]
    by_cases hle : s ≤ (2 : Int) ^ 63 - 1
    · rw [if_neg (by omega), if_pos hle]
    · rw [if_pos (Or.inr (by omega)), if_neg hle]

/-- Splitting a comma-free list yields the single field unchanged. -/
theorem splitOnComma_no_comma {l : List Char} (h : ',' ∉ l) : splitOnComma l = [l] := by
  induction l with
  | nil => rfl
  | cons c cs ih =>
    have hc : c ≠ ',' := fun he => h (he ▸ List.mem_cons_self c cs)
    simp only [splitOnComma]
    rw [if_neg hc, ih fun hm => h (List.mem_cons_of_mem c hm)]

/-- Splitting `a ++ "," ++ t` with `a` comma-free peels off the field `a`. -/
theorem splitOnComma_append {a t : List Char} (h : ',' ∉ a) :
    splitOnComma (a ++ ',' :: t) = a :: splitOnComma t := by
  induction a with
  | nil =>
    simp only [List.nil_append, splitOnComma]
    rw [if_pos trivial]
  | cons c cs ih =>
    have hc : c ≠ ',' := fun he => h (he ▸ List.mem_cons_self c cs)
    simp only [List.cons_append, splitOnComma, List.append_eq]
    rw [if_neg hc, ih fun hm => h (List.mem_cons_of_mem c hm)]

/-- The daily report template never produces the empty string. -/
theorem dayMsg_ne_empty (steps : Int) (dist cal : ℚ) : dayMsg steps dist cal ≠ "" := by
  intro hc
  unfold dayMsg at hc
  have hlen := congrArg String.length hc
  rw [String.length_append, String.length_append] at hlen
  have h1 : ("Количество шагов: " : String).length = 18 := rfl
  have h2 : ("" : String).length = 0 := rfl
  omega

/-- The daily report template contains the decimal rendering of the step
count verbatim. -/
theorem dayMsg_contains (steps : Int) (dist cal : ℚ) :
    ∃ p q, dayMsg steps dist cal = p ++ String.mk (intToChars steps) ++ q :=
  ⟨"Количество шагов: ",
   ".\nДистанция составила " ++ formatFloat2 dist ++ " км.\nВы сожгли " ++
     formatFloat2 cal ++ " ккал.\n", rfl⟩

/-- `leadingInt` consumes a prefix of decimal digits. -/
theorem leadingInt_suffix :
    ∀ (s : List Char) (x v : Nat) (r : List Char), leadingInt x s = some (v, r) →
      ∃ p, s = p ++ r ∧ ∀ c ∈ p, c.isDigit = true := by
  intro s
  induction s with
  | nil =>
    intro x v r h
    simp only [leadingInt, Option.some.injEq, Prod.mk.injEq] at h
    exact ⟨[], by simp [← h.2], by simp⟩
  | cons c cs ih =>
    intro x v r h
    simp only [leadingInt] at h
    by_cases hd : c.isDigit = true
    · rw [if_pos hd] at h
      split at h
      · exact absurd h (by simp)
      · split at h
        · exact absurd h (by simp)
        · obtain ⟨p, hp, hdig⟩ := ih _ _ _ h
          refine ⟨c :: p, by rw [List.cons_append, ← hp], fun ch hch => ?_⟩
          rcases List.mem_cons.mp hch with h1 | h1
          · exact h1 ▸ hd
          · exact hdig ch h1
    · rw [if_neg hd] at h
      simp only [Option.some.injEq, Prod.mk.injEq] at h
      exact ⟨[], by simp [← h.2], by simp⟩

/-- `leadingFraction` consumes a prefix of decimal digits. -/
theorem leadingFraction_suffix :
    ∀ (s : List Char) (x : Nat) (sc : ℚ) (ov : Bool) (f : Nat) (sc2 : ℚ)
      (r : List Char), leadingFraction x sc ov s = (f, sc2, r) →
      ∃ p, s = p ++ r ∧ ∀ c ∈ p, c.isDigit = true := by
  intro s
  induction s with
  | nil =>
    intro x sc ov f sc2 r h
    simp only [leadingFraction, Prod.mk.injEq] at h
    exact ⟨[], by simp [← h.2.2], by simp⟩
  | cons c cs ih =>
    intro x sc ov f sc2 r h
    simp only [leadingFraction] at h
    by_cases hd : c.isDigit = true
    · rw [if_pos hd] at h
      have key : ∀ {x2 : Nat} {sc3 : ℚ} {ov2 : Bool},
          leadingFraction x2 sc3 ov2 cs = (f, sc2, r) →
          ∃ p, c :: cs = p ++ r ∧ ∀ ch ∈ p, ch.isDigit = true := by
        intro x2 sc3 ov2 hrec
        obtain ⟨p, hp, hdig⟩ := ih _ _ _ _ _ _ hrec
        refine ⟨c :: p, by rw [List.cons_append, ← hp], fun ch hch => ?_⟩
        rcases List.mem_cons.mp hch with h1 | h1
        · exact h1 ▸ hd
        · exact hdig ch h1
      split at h
      · exact key h
      · split at h
        · exact key h
        · split at h
          · exact key h
          · exact key h
    · rw [if_neg hd] at h
      simp only [Prod.mk.injEq] at h
      exact ⟨[], by simp [← h.2.2], by simp⟩

/-- `fracPart` consumes a prefix made of a dot and decimal digits. -/
theorem fracPart_suffix {s : List Char} {f : Nat} {sc : ℚ} {r : List Char}
    {post : Bool} (h : fracPart s = (f, sc, r, post)) :
    ∃ p, s = p ++ r ∧ ∀ c ∈ p, c = '.' ∨ c.isDigit = true := by
  unfold fracPart at h
  rcases s with _ | ⟨c, rest⟩
  · simp only [Prod.mk.injEq] at h
    exact ⟨[], by simp [← h.2.2.1], by simp⟩
  · dsimp only [] at h
    by_cases hc : c = '.'
    · rw [if_pos hc] at h
      rcases hlf : leadingFraction 0 1 false rest with ⟨f2, sc3, r2⟩
      rw [hlf] at h
      dsimp only [] at h
      simp only [Prod.mk.injEq] at h
      obtain ⟨p, hp, hdig⟩ := leadingFraction_suffix rest 0 1 false f2 sc3 r2 hlf
      refine ⟨c :: p, by rw [List.cons_append, ← h.2.2.1, ← hp], fun ch hch => ?_⟩
      rcases List.mem_cons.mp hch with h1 | h1
      · exact Or.inl (h1 ▸ hc)
      · exact Or.inr (hdig ch h1)
    · rw [if_neg hc] at h
      simp only [Prod.mk.injEq] at h
      exact ⟨[], by simp [← h.2.2.1], by simp⟩

/-- Unit tokens accepted by `unitMap` never contain a comma. -/
theorem unitMap_no_comma {u : List Char} {k : Nat} (h : unitMap u = some k) :
    ∀ c ∈ u, c ≠ ',' := by
  unfold unitMap at h
  split_ifs at h with h1 h2 h3 h4 h5 h6 h7 h8
  · subst h1; decide
  · subst h2; decide
  · subst h3; decide
  · subst h4; decide
  · subst h5; decide
  · subst h6; decide
  · subst h7; decide
  · subst h8; decide

/-- The tail of one `ParseDuration` loop iteration: the two final overflow
guards followed by the recursive call. -/
theorem parseDurTailNoComma {n : Nat}
    (ih : ∀ (d : Nat) (s : List Char) (out : Nat),
      parseDurLoop n d s = some out → ',' ∉ s)
    {d v2 out : Nat} {s3 : List Char}
    (h : (if 2 ^ 63 < v2 then none
          else if 2 ^ 63 < d + v2 then none
          else parseDurLoop n (d + v2) s3) = some out) : ',' ∉ s3 := by
  split at h
  · exact absurd h (by simp)
  · split at h
    · exact absurd h (by simp)
    · exact ih _ _ _ h

/-- Every input accepted by the `ParseDuration` main loop is comma-free. -/
theorem parseDurLoop_no_comma :
    ∀ (fuel d : Nat) (s : List Char) (out : Nat),
      parseDurLoop fuel d s = some out → ',' ∉ s := by
  intro fuel
  induction fuel with
  | zero =>
    intro d s out h
    rcases s with _ | ⟨c, cs⟩
    · simp
    · simp [parseDurLoop] at h
  | succ n ih =>
    intro d s out h
    rcases s with _ | ⟨c, cs⟩
    · simp
    · simp only [parseDurLoop] at h
      split at h
      · exact absurd h (by simp)
      · rcases hli : leadingInt 0 (c :: cs) with _ | ⟨v, s1⟩
        · rw [hli] at h
          exact absurd h (by simp)
        · rw [hli] at h
          dsimp only [] at h
          rcases hfp : fracPart s1 with ⟨f, scale, s2, post⟩
          rw [hfp] at h
          dsimp only [] at h
          split at h
          · exact absurd h (by simp)
          · split at h
            · exact absurd h (by simp)
            · rcases hum : unitMap (s2.takeWhile fun ch => ¬ isUnitEnd ch) with _ | unit
              · rw [hum] at h
                exact absurd h (by simp)
              · rw [hum] at h
                dsimp only [] at h
                split at h
                · exact absurd h (by simp)
                · have hs3 := parseDurTailNoComma ih h
                  obtain ⟨p1, hp1, hd1⟩ := leadingInt_suffix _ _ _ _ hli
                  obtain ⟨p2, hp2, hd2⟩ := fracPart_suffix hfp
                  have hs2 : s2 = (s2.takeWhile fun ch => ¬ isUnitEnd ch) ++
                      s2.dropWhile fun ch => ¬ isUnitEnd ch :=
                    (List.takeWhile_append_dropWhile _ s2).symm
                  intro hmem
                  rw [hp1] at hmem
                  rcases List.mem_append.mp hmem with hm | hm
                  · exact absurd (hd1 ',' hm) (by decide)
                  · rw [hp2] at hm
                    rcases List.mem_append.mp hm with hm2 | hm2
                    · rcases hd2 ',' hm2 with h1 | h1
                      · exact absurd h1 (by decide)
                      · exact absurd h1 (by decide)
                    · rw [hs2] at hm2
                      rcases List.mem_append.mp hm2 with hm3 | hm3
                      · exact unitMap_no_comma hum ',' hm3 rfl
                      · exact hs3 hm3

/-- Every string accepted by `ParseDuration` is comma-free. -/
theorem ParseDuration_no_comma {t : List Char} {dv : Int}
    (h : ParseDuration t = some dv) : ',' ∉ t := by
  unfold ParseDuration at h
  rcases t with _ | ⟨c, rest⟩
  · simp
  · dsimp only [] at h
    intro hmem
    by_cases hsign : (c == '-' || c == '+') = true
    · rw [if_pos hsign] at h
      have hcne : c ≠ ',' := by
        rcases Bool.or_eq_true _ _ |>.mp hsign with h1 | h1
        · rw [beq_iff_eq.mp h1]; decide
        · rw [beq_iff_eq.mp h1]; decide
      rcases List.mem_cons.mp hmem with h1 | h1
      · exact hcne h1.symm
      · split at h
        · rename_i h0
          rw [h0] at h1
          exact absurd h1 (by decide)
        · split at h
          · exact absurd h (by simp)
          · rcases hpl : parseDurLoop rest.length 0 rest with _ | out
            · rw [hpl] at h
              exact absurd h (by simp)
            · exact parseDurLoop_no_comma _ _ _ _ hpl h1
    · rw [if_neg hsign] at h
      split at h
      · rename_i h0
        rw [h0] at hmem
        exact absurd hmem (by decide)
      · split at h
        · exact absurd h (by simp)
        · rcases hpl : parseDurLoop (c :: rest).length 0 (c :: rest) with _ | out
          · rw [hpl] at h
            exact absurd h (by simp)
          · exact parseDurLoop_no_comma _ _ _ _ hpl hmem

/-- `parsePackage` on a record built from a positive in-range step count and
an accepted positive duration succeeds with exactly those values. -/
theorem parsePackage_of_record {s : Int} {t : List Char} {d : Int}
    (h0 : 0 < s) (hle : s ≤ 2 ^ 63 - 1) (ht : ParseDuration t = some d)
    (hd : 0 < d) (hnc : ',' ∉ t) :
    parsePackage (intToChars s ++ ',' :: t) = (s, d, none) := by
  unfold parsePackage
  rw [splitOnComma_append (intToChars_no_comma s), splitOnComma_no_comma hnc]
  dsimp only []
  rw [atoi_intToChars_pos h0, if_pos hle]
  dsimp only []
  rw [if_neg (by omega), ht]
  dsimp only []
  rw [if_neg (by omega)]

/-- C8 counterexample: the claim quantifies over every positive integer
step count, but on the record for `2^63` (one past the largest 64-bit int)
with duration "30m" and valid weight and height, `strconv.Atoi` rejects the
step field and `DayActionInfo` returns the empty string instead of a report
containing the step count. -/
theorem DayActionInfo_steps_overflow_counterexample :
    DayActionInfo (intToChars 9223372036854775808 ++ ',' :: ['3', '0', 'm'])
      70 175 = "" := by
  have ha : atoi (intToChars 9223372036854775808) = none := by
    rw [atoi_intToChars_pos (by norm_num)]
    norm_num
  have hsplit : splitOnComma
      (intToChars 9223372036854775808 ++ ',' :: ['3', '0', 'm']) =
      [intToChars 9223372036854775808, ['3', '0', 'm']] := by
    rw [splitOnComma_append (intToChars_no_comma _),
      splitOnComma_no_comma (by decide)]
  exact dayActionInfoEmptyOfParseErr 70 175
    (by rw [parsePackage_atoi_none hsplit ha])

/-- C8 (amended): for every positive integer `s` representable as a 64-bit
int (`s ≤ 2^63 - 1`) and every duration string `t` accepted by
`ParseDuration` with a positive value, `DayActionInfo` on the record
`"s,t"` with positive weight and height produces a non-empty string that
contains the literal decimal step count `s`, following the fixed three-line
report template. -/
theorem DayActionInfo_contains_steps (s : Int) (t : List Char) (d : Int)
    (weight height : ℚ) (hs : 0 < s) (hsle : s ≤ 2 ^ 63 - 1)
    (ht : ParseDuration t = some d) (hd : 0 < d)
    (hw : 0 < weight) (hh : 0 < height) :
    DayActionInfo (intToChars s ++ ',' :: t) weight height ≠ "" ∧
    ∃ p q : String,
      DayActionInfo (intToChars s ++ ',' :: t) weight height =
        p ++ String.mk (intToChars s) ++ q := by
  have hp := parsePackage_of_record hs hsle ht hd (ParseDuration_no_comma ht)
  rw [dayActionInfoSuccess hw hh hp]
  exact ⟨dayMsg_ne_empty s (dayDist s) _, dayMsg_contains s (dayDist s) _⟩

/-- Witness for the amended C8 on the record "5000,30m" with weight 70 and
height 175. -/
theorem DayActionInfo_contains_steps_witness :
    DayActionInfo (intToChars 5000 ++ ',' :: ['3', '0', 'm']) 70 175 ≠ "" ∧
    ∃ p q : String,
      DayActionInfo (intToChars 5000 ++ ',' :: ['3', '0', 'm']) 70 175 =
        p ++ String.mk (intToChars 5000) ++ q :=
  DayActionInfo_contains_steps 5000 ['3', '0', 'm'] 1800000000000 70 175
    (by decide) (by decide) (by decide) (by decide) (by decide) (by decide)

end FitnessTracker
